import Mathlib

/-!
Verification of the 3dagents repository against its specification.

The definitions below are shallow embeddings of the TypeScript sources:
* `src/orchestrator/index.ts` (WorldEventOrchestrator, CallStack),
* the server chat route (`executeConsultation` and its guards),
* `src/components/ChatOverlay.tsx` (`parseStreamChunk` and the stream loop),
* `src/game/Navigation.ts` (grid, `markBlocked`, `findPath`, `findNearestWalkable`),
* `src/game/Agent.ts` (`followPath`, `arriveAtDestination`, `update`).

Machine numbers of the source (JS doubles) are modelled as exact rationals
(`Rat`); the values involved in the claims are small integers and halves, on
which double arithmetic is exact.  Wall-clock values (`Date.now()`,
`setTimeout` delays) and purely visual Phaser effects are abstracted away;
asynchronous phases are modelled as running to completion without
interleaving, which is the single-threaded behaviour relevant to the claims.
-/

set_option maxRecDepth 10000

namespace ThreeDAgents

/-! ### Orchestrator model (src/orchestrator/index.ts) -/

/-- Frame status, from `ToolCallFrame.status` in src/types/orchestrator.ts. -/
inductive FrameStatus where
  | pending
  | walking
  | thinking
  | returning
  | complete
deriving DecidableEq

/-- `ToolCallFrame` (src/types/orchestrator.ts).  `startTime` and `response`
are omitted: `startTime` is wall-clock (abstracted) and `response` is never
written by the orchestrator. -/
structure ToolCallFrame where
  id : String
  callerAgentId : String
  targetAgentId : String
  query : String
  context : Option String
  depth : Nat
  status : FrameStatus
  thoughtBubbleId : Option String
deriving DecidableEq

/-- `StatusMessage` (src/types/orchestrator.ts); `timestamp` abstracted. -/
structure StatusMessage where
  type : String
  agentId : String
  targetAgentId : Option String
  message : String
  depth : Nat
deriving DecidableEq

/-- Full orchestrator state: the private fields of `CallStack` and
`WorldEventOrchestrator`, plus the externally observable effect streams
(status messages emitted through `onStatusMessage`, and the set of visible
thought bubbles maintained through `showThoughtBubble` /
`updateThoughtBubble` / `hideThoughtBubble`). -/
structure OrchState where
  frames : List ToolCallFrame
  maxDepth : Nat
  busy : String → Bool
  callbacksSet : Bool
  isCancelled : Bool
  rootAgentId : String
  statuses : List StatusMessage
  bubbles : List (String × String)

/-- Fresh orchestrator, per the `WorldEventOrchestrator` constructor. -/
def initOrch (rootAgentId : String) : OrchState :=
  { frames := []
    maxDepth := 0
    busy := fun _ => false
    callbacksSet := false
    isCancelled := false
    rootAgentId := rootAgentId
    statuses := []
    bubbles := [] }

/-- `CallStack.isAgentInChain`: some frame has the agent as caller or target. -/
def isAgentInChain (frames : List ToolCallFrame) (agentId : String) : Bool :=
  frames.any (fun f => f.callerAgentId == agentId || f.targetAgentId == agentId)

/-- `CallStack.updateFrame`: mutate the first frame found with the given id
(`frames.find` in the source returns the first match). -/
def updateFirstFrame (frameId : String) (g : ToolCallFrame → ToolCallFrame) :
    List ToolCallFrame → List ToolCallFrame
  | [] => []
  | f :: fs =>
    if f.id == frameId then g f :: fs else f :: updateFirstFrame frameId g fs

/-- The agent roster of `src/agents/personalities.ts`
(`AGENT_PERSONALITIES`, professional squad): `(id, name)`. -/
def AGENT_ROSTER : List (String × String) :=
  [("product-owner", "Alex"), ("qa-engineer", "Jordan"),
   ("tech-lead", "Sam"), ("release-manager", "Morgan")]

/-- `getAgentName` in the orchestrator: `getAgentById(id)?.name || id`. -/
def getAgentName (agentId : String) : String :=
  match AGENT_ROSTER.find? (fun p => p.1 == agentId) with
  | some p => p.2
  | none => agentId

/-- `summarizeResponse`: truncate to 50 chars with a `...` suffix. -/
def summarizeResponse (response : String) : String :=
  if response.length ≤ 50 then response
  else (response.take 47) ++ "..."

/-- `emitStatus`: append a status message; `depth` is the current stack
length, as in the source. -/
def emitStatus (s : OrchState) (type agentId : String)
    (targetAgentId : Option String) (message : String) : OrchState :=
  { s with statuses := s.statuses ++
      [{ type := type, agentId := agentId, targetAgentId := targetAgentId,
         message := message, depth := s.frames.length }] }

/-- `WorldEventOrchestrator.handleToolCall`.  `newId` stands for the
`crypto.randomUUID()` value.  The walking and thinking phases (both purely
visual) are modelled as completing successfully, which is the behaviour on
the success path of the source's `try` block; the returned `Bool` is the
`visualsComplete` field of the result. -/
def handleToolCall (s : OrchState) (newId callerAgentId targetAgentId query : String)
    (context : Option String) : OrchState × Bool :=
  if !s.callbacksSet then (s, false)
  else if s.isCancelled then (s, false)
  else if s.busy targetAgentId then
    (emitStatus s "consulting" callerAgentId (some targetAgentId)
      (getAgentName targetAgentId ++ " is busy..."), false)
  else if isAgentInChain s.frames targetAgentId then (s, false)
  else
    let depth := s.frames.length
    let frame : ToolCallFrame :=
      { id := newId, callerAgentId := callerAgentId,
        targetAgentId := targetAgentId, query := query, context := context,
        depth := depth, status := .pending, thoughtBubbleId := none }
    let s1 : OrchState :=
      { s with frames := s.frames ++ [frame],
               maxDepth := max s.maxDepth depth,
               busy := fun a => if a == targetAgentId then true else s.busy a }
    -- walking phase: status := walking, emit "Consulting ...", walk visual
    let s2 := { s1 with
      frames := updateFirstFrame newId (fun f => { f with status := .walking }) s1.frames }
    let s3 := emitStatus s2 "consulting" callerAgentId (some targetAgentId)
      ("Consulting " ++ getAgentName targetAgentId ++ "...")
    -- thinking phase: status := thinking, show bubble, record its id, emit
    let s4 := { s3 with
      frames := updateFirstFrame newId (fun f => { f with status := .thinking }) s3.frames }
    let bubbleId := "bubble-" ++ newId
    let s5 := { s4 with bubbles := s4.bubbles ++ [(bubbleId, "")] }
    let s6 := { s5 with
      frames := updateFirstFrame newId
        (fun f => { f with thoughtBubbleId := some bubbleId }) s5.frames }
    let s7 := emitStatus s6 "thinking" targetAgentId none
      (getAgentName targetAgentId ++ " is thinking...")
    (s7, true)

/-- `WorldEventOrchestrator.findFrame`: the source body is
`return undefined; // Frame is managed internally via stack`, despite its
comment announcing a linear search. -/
def findFrame (_s : OrchState) (_frameId : String) : Option ToolCallFrame :=
  none

/-- Update a thought bubble's content (`updateThoughtBubble` callback). -/
def updateBubble (bs : List (String × String)) (bubbleId content : String) :
    List (String × String) :=
  bs.map (fun b => if b.1 == bubbleId then (b.1, content) else b)

/-- `WorldEventOrchestrator.completeToolCall`.  The branch below the
`findFrame` lookup mirrors the source (bubble summary, returning phase,
busy clear, pop, bubble hide), but is unreachable because `findFrame`
always returns `none`. -/
def completeToolCall (s : OrchState) (frameId response : String) : OrchState :=
  if !s.callbacksSet then s
  else
    match findFrame s frameId with
    | none => s
    | some frame =>
      let s1 := { s with bubbles :=
        (match frame.thoughtBubbleId with
         | some bid => updateBubble s.bubbles bid (summarizeResponse response)
         | none => s.bubbles) }
      let s2 := { s1 with frames := (updateFirstFrame frameId
        (fun f => { f with status := .returning }) s1.frames) }
      let s3 := emitStatus s2 "returning" frame.targetAgentId none
        (getAgentName frame.targetAgentId ++ " returning...")
      let s4 := { s3 with busy := fun a =>
        if a == frame.targetAgentId then false else s3.busy a }
      let s5 := { s4 with frames := s4.frames.dropLast }
      { s5 with bubbles :=
        (match frame.thoughtBubbleId with
         | some bid => s5.bubbles.filter (fun b => !(b.1 == bid))
         | none => s5.bubbles) }

/-- `WorldEventOrchestrator.cancel`: latch the flag, clear the stack and all
busy flags; `returnAllAgentsToDesks` also removes every thought bubble. -/
def cancelOrch (s : OrchState) : OrchState :=
  { s with isCancelled := true, frames := [], busy := fun _ => false,
           bubbles := [] }

/-- `WorldEventOrchestrator.reset`. -/
def resetOrch (s : OrchState) : OrchState :=
  { s with isCancelled := false, frames := [], busy := fun _ => false }

/-- Externally triggerable orchestrator operations. -/
inductive Op where
  | setCallbacks
  | call (newId callerAgentId targetAgentId query : String) (context : Option String)
  | complete (frameId response : String)
  | cancel
  | reset
deriving DecidableEq

/-- One orchestrator transition. -/
def step (s : OrchState) : Op → OrchState
  | .setCallbacks => { s with callbacksSet := true }
  | .call newId caller target query ctx =>
    (handleToolCall s newId caller target query ctx).1
  | .complete frameId response => completeToolCall s frameId response
  | .cancel => cancelOrch s
  | .reset => resetOrch s

/-- The state reached from a fresh orchestrator by a sequence of operations. -/
def run (rootAgentId : String) (ops : List Op) : OrchState :=
  ops.foldl step (initOrch rootAgentId)

/-! ### Server-side consultation model (chat API route) -/

/-- `MAX_CALL_DEPTH` of the chat route. -/
def MAX_CALL_DEPTH : Nat := 5

/-- The canned maximum-depth response of `executeConsultation`. -/
def maxDepthMessage : String :=
  "Maximum consultation depth reached. Cannot consult further."

/-- The canned circular-consultation response of `executeConsultation`. -/
def circularMessage : String :=
  "This agent is already in the consultation chain. Cannot create circular consultation."

/-- `canConsult` lists from `src/agents/personalities.ts`. -/
def canConsult (agentId : String) : List String :=
  if agentId == "product-owner" then ["tech-lead", "qa-engineer", "release-manager"]
  else if agentId == "qa-engineer" then ["tech-lead", "product-owner", "release-manager"]
  else if agentId == "tech-lead" then ["qa-engineer", "product-owner", "release-manager"]
  else if agentId == "release-manager" then ["tech-lead", "qa-engineer", "product-owner"]
  else []

/-- `getConsultableAgents`: the ids of the agents an agent may consult
(every id in a `canConsult` list exists in the roster). -/
def getConsultableAgents (agentId : String) : List String :=
  if (AGENT_ROSTER.find? (fun p => p.1 == agentId)).isSome then canConsult agentId
  else []

/-- A consultation request issued by the language model through the
`consultAgent` tool (`args` of the tool's `execute`). -/
structure ConsultRequest where
  targetAgentId : String
  query : String
  context : Option String
deriving DecidableEq

/-- A `ToolCallEvent` as emitted through `onToolCall` in the chat route. -/
structure ToolEvent where
  type : String
  callerAgentId : String
  targetAgentId : String
  query : Option String
  response : Option String
  depth : Nat
deriving DecidableEq

/-- Result shape of `executeConsultation`. -/
structure ConsultResult where
  agentName : String
  response : String
deriving DecidableEq

/-- Abstraction of `generateText`: given the consulted agent's id and the
nested prompt, the model issues a sequence of `consultAgent` tool
invocations and produces a final text.  The network and sampling are outside
the program; only the route's handling of the model's choices is verified. -/
structure LLMOracle where
  consults : String → String → List ConsultRequest
  finalText : String → String → String

/-- The nested prompt built by `executeConsultation`. -/
def nestedPrompt (query : String) : Option String → String
  | some ctx =>
    "A colleague needs your help.\n\nContext: " ++ ctx ++ "\n\nQuestion: " ++ query
  | none => "A colleague needs your help.\n\nQuestion: " ++ query

/-- `executeConsultation` of the chat route: depth guard, cycle guard,
unknown-agent guard, then one `generateText` turn whose `consultAgent` tool
invocations recurse with `depth + 1` and the extended chain, emitting
`tool_call_start` / `tool_call_end` events around each nested call.  The
returned list collects the events passed to `onToolCall`, in order. -/
def executeConsultation (llm : LLMOracle) (targetAgentId query : String)
    (context : Option String) (callChain : List String) (depth : Nat) :
    ConsultResult × List ToolEvent :=
  if MAX_CALL_DEPTH ≤ depth then
    ({ agentName := targetAgentId, response := maxDepthMessage }, [])
  else if targetAgentId ∈ callChain then
    ({ agentName := targetAgentId, response := circularMessage }, [])
  else
    match AGENT_ROSTER.find? (fun p => p.1 == targetAgentId) with
    | none =>
      ({ agentName := targetAgentId,
         response := "Agent " ++ targetAgentId ++ " not found." }, [])
    | some agent =>
      let newChain := callChain ++ [targetAgentId]
      let availableIds :=
        (getConsultableAgents targetAgentId).filter (fun a => !newChain.contains a)
      let prompt := nestedPrompt query context
      -- tools are only offered to the model when some agent is available
      let requests := if availableIds.length > 0 then llm.consults targetAgentId prompt else []
      let events := requests.map (fun r =>
        if availableIds.contains r.targetAgentId then
          let nested := executeConsultation llm r.targetAgentId r.query r.context
            newChain (depth + 1)
          ({ type := "tool_call_start", callerAgentId := targetAgentId,
             targetAgentId := r.targetAgentId, query := some r.query,
             response := none, depth := depth + 1 } : ToolEvent) ::
          nested.2 ++
          [{ type := "tool_call_end", callerAgentId := targetAgentId,
             targetAgentId := r.targetAgentId, query := none,
             response := some nested.1.response, depth := depth + 1 }]
        else [])
      ({ agentName := agent.2, response := llm.finalText targetAgentId prompt },
       events.flatten)
termination_by MAX_CALL_DEPTH - depth
decreasing_by
  simp only [MAX_CALL_DEPTH] at *
  omega

/-! ### Stream chunk parser (src/components/ChatOverlay.tsx)

`parseStreamChunk` extracts the matches of the JavaScript regular expression
`/__TOOL_EVENT__(.+?)__END_TOOL_EVENT__/g` from a chunk and removes the
matched spans from the text.  The model below reproduces the regex engine's
behaviour for this pattern on a character list: leftmost match start, a
literal opener, a lazy one-or-more payload whose characters cannot be line
terminators (JavaScript `.`), and a literal closer; the `replace` with the
same global regex removes exactly the matched spans.  Events are modelled at
the level of the captured payload strings: the source additionally applies
`JSON.parse` to each payload and keeps `eventData.toolEvent`, a fixed
per-payload decoding applied identically wherever the payload is extracted,
so equality of payload lists is the faithful notion of equality of extracted
event lists. -/

/-- The opening marker `__TOOL_EVENT__`. -/
def openMark : List Char := "__TOOL_EVENT__".data

/-- The closing marker `__END_TOOL_EVENT__`. -/
def endMark : List Char := "__END_TOOL_EVENT__".data

/-- JavaScript line terminators, which `.` does not match. -/
def isLineTerm (c : Char) : Bool :=
  c == '\n' || c == '\r' || c.val == 0x2028 || c.val == 0x2029

/-- Lazy payload scan: starting right after an opener, consume one or more
non-line-terminator characters, stopping at the first position where the
closing marker follows; returns the payload and the text after the closer,
or `none` when the pattern cannot match at this opener. -/
def grabPayload : List Char → Option (List Char × List Char)
  | [] => none
  | c :: cs =>
    if isLineTerm c then none
    else if endMark.isPrefixOf cs then some ([c], cs.drop endMark.length)
    else
      match grabPayload cs with
      | some (p, rest) => some (c :: p, rest)
      | none => none

theorem grabPayload_length (l : List Char) :
    ∀ p rest, grabPayload l = some (p, rest) →
    l.length = p.length + endMark.length + rest.length := by
  induction l with
  | nil => intro p rest h; simp [grabPayload] at h
  | cons c cs ih =>
    intro p rest h
    rw [grabPayload] at h
    split at h
    · simp at h
    · split at h
      · rename_i hend
        simp only [Option.some.injEq, Prod.mk.injEq] at h
        obtain ⟨hp, hrest⟩ := h
        have hlen : endMark.length ≤ cs.length :=
          (List.isPrefixOf_iff_prefix.mp hend).length_le
        subst hp
        subst hrest
        simp only [List.length_cons, List.length_drop, List.length_nil]
        omega
      · split at h
        · rename_i p2 rest2 hrec
          simp only [Option.some.injEq, Prod.mk.injEq] at h
          obtain ⟨hp, hrest⟩ := h
          have hlen := ih p2 rest2 hrec
          subst hp
          subst hrest
          simp only [List.length_cons]
          omega
        · simp at h

/-- The scanner behind `parseStreamChunk`, with explicit fuel so that it is
structurally recursive: successive leftmost matches of the tool-event regex;
unmatched characters become text, captured payloads become events, in
order.  A fuel of `l.length` always suffices (each step consumes at least
one character), as `scanChunkF_fuel` below proves. -/
def scanChunkF : Nat → List Char → List Char × List (List Char)
  | _, [] => ([], [])
  | 0, l => (l, [])
  | fuel + 1, c :: cs =>
    if openMark.isPrefixOf (c :: cs) then
      match grabPayload ((c :: cs).drop openMark.length) with
      | some (p, rest) =>
        let t := scanChunkF fuel rest
        (t.1, p :: t.2)
      | none =>
        let t := scanChunkF fuel cs
        (c :: t.1, t.2)
    else
      let t := scanChunkF fuel cs
      (c :: t.1, t.2)

/-- The scanner, run with sufficient fuel. -/
def scanChunk (l : List Char) : List Char × List (List Char) :=
  scanChunkF l.length l

theorem scanChunkF_nil (f : Nat) : scanChunkF f [] = ([], []) := by
  cases f <;> rfl

theorem scanChunkF_cons (f : Nat) (c : Char) (cs : List Char) :
    scanChunkF (f + 1) (c :: cs) =
      if openMark.isPrefixOf (c :: cs) then
        match grabPayload ((c :: cs).drop openMark.length) with
        | some (p, rest) => ((scanChunkF f rest).1, p :: (scanChunkF f rest).2)
        | none => (c :: (scanChunkF f cs).1, (scanChunkF f cs).2)
      else (c :: (scanChunkF f cs).1, (scanChunkF f cs).2) := rfl

theorem grabPayload_rest_le (c : Char) (cs p rest : List Char)
    (hg : grabPayload ((c :: cs).drop openMark.length) = some (p, rest)) :
    rest.length ≤ cs.length := by
  have hlen := grabPayload_length _ _ _ hg
  have hdrop : ((c :: cs).drop openMark.length).length =
      cs.length + 1 - openMark.length := by
    simp [List.length_drop]
  rw [hdrop] at hlen
  have h14 : openMark.length = 14 := by decide
  have h18 : endMark.length = 18 := by decide
  omega

theorem scanChunkF_fuel (fuel : Nat) : ∀ (l : List Char), l.length ≤ fuel →
    scanChunkF fuel l = scanChunkF l.length l := by
  induction fuel using Nat.strong_induction_on with
  | _ fuel ih =>
    intro l hl
    cases l with
    | nil => rw [scanChunkF_nil, scanChunkF_nil]
    | cons c cs =>
      cases fuel with
      | zero => simp at hl
      | succ f =>
        rw [List.length_cons] at hl ⊢
        rw [scanChunkF_cons, scanChunkF_cons]
        have hcs : cs.length ≤ f := by omega
        by_cases hopen : openMark.isPrefixOf (c :: cs) = true
        · simp only [hopen, if_true]
          cases hg : grabPayload ((c :: cs).drop openMark.length) with
          | none => rw [ih f (by omega) cs hcs]
          | some pr =>
            obtain ⟨p, rest⟩ := pr
            have hrest := grabPayload_rest_le c cs p rest hg
            show ((scanChunkF f rest).1, p :: (scanChunkF f rest).2) =
              ((scanChunkF cs.length rest).1, p :: (scanChunkF cs.length rest).2)
            rw [ih f (by omega) rest (by omega),
                ih cs.length (by omega) rest hrest]
        · simp only [Bool.not_eq_true] at hopen
          simp only [hopen, Bool.false_eq_true, if_false]
          rw [ih f (by omega) cs hcs]

/-- `parseStreamChunk`: text with matched spans removed, and the captured
payloads in order. -/
def parseStreamChunk (chunk : String) : String × List String :=
  let t := scanChunk chunk.data
  (String.mk t.1, t.2.map String.mk)

/-- An interleaved input stream: alternating narrative-text / embedded-event
pairs followed by trailing narrative text.  `renderStream` is the wire form
with each payload wrapped in marker pairs. -/
structure InterleavedStream where
  segs : List (String × String)
  tail : String

/-- Wire form of one (text, payload) pair. -/
def renderSeg (tp : String × String) : List Char :=
  tp.1.data ++ openMark ++ tp.2.data ++ endMark

/-- Wire form of the whole stream. -/
def renderStream (st : InterleavedStream) : List Char :=
  (st.segs.map renderSeg).flatten ++ st.tail.data

/-- The original narrative text of the stream (markers removed). -/
def narrativeOf (st : InterleavedStream) : List Char :=
  (st.segs.map (fun tp => tp.1.data)).flatten ++ st.tail.data

/-- The original ordered event (payload) list of the stream. -/
def eventsOf (st : InterleavedStream) : List (List Char) :=
  st.segs.map (fun tp => tp.2.data)

/-- Narrative text that cannot start a marker match: no opener occurrence
begins inside it, even one completed by an opener written directly after. -/
def goodText (t : List Char) : Prop :=
  ∀ i < t.length, ¬ openMark.isPrefixOf ((t ++ openMark).drop i) = true

/-- Payloads as produced by `JSON.stringify` on tool events: non-empty, free
of line terminators, and not containing an early closer occurrence (so the
lazy scan stops exactly at the wrapping closer). -/
def goodPayload (p : List Char) : Prop :=
  p ≠ [] ∧ (∀ c ∈ p, ¬ isLineTerm c = true) ∧
    ∀ k, 1 ≤ k → k < p.length → ¬ endMark.isPrefixOf ((p ++ endMark).drop k) = true

/-- No opener occurrence at all (for the trailing text). -/
def noOpenMark (t : List Char) : Prop :=
  ∀ i < t.length, ¬ openMark.isPrefixOf (t.drop i) = true

/-- A well-formed interleaved stream: every narrative segment is inert and
every payload is a proper single-line JSON text. -/
def wellFormedStream (st : InterleavedStream) : Prop :=
  (∀ tp ∈ st.segs, goodText tp.1.data ∧ goodPayload tp.2.data) ∧
    noOpenMark st.tail.data

instance : DecidablePred goodText := fun t => by
  unfold goodText
  infer_instance

instance : DecidablePred goodPayload := fun p => by
  unfold goodPayload
  have : ∀ k, Decidable (k < p.length →
      ¬ endMark.isPrefixOf ((p ++ endMark).drop k) = true) := by
    intro k
    infer_instance
  infer_instance

instance : DecidablePred noOpenMark := fun t => by
  unfold noOpenMark
  infer_instance

instance (st : InterleavedStream) : Decidable (wellFormedStream st) := by
  unfold wellFormedStream
  infer_instance

/-! ### Navigation model (src/game/Navigation.ts)

World coordinates are rationals (exact for the double arithmetic the claims
exercise); grid cells are `Int` pairs `(x, y)`; the grid itself is a list of
rows of `0` (walkable) / `1` (blocked) values, as in the source. -/

/-- `Math.floor` on an exact rational: for `q = num / den` in lowest terms
with positive denominator, the floor is the flooring integer division. -/
def ratFloor (q : ℚ) : Int := q.num.fdiv (q.den : Int)

/-- `Math.ceil` on an exact rational. -/
def ratCeil (q : ℚ) : Int := -(ratFloor (-q))

structure Navigation where
  tileSize : ℚ
  worldWidth : ℚ
  worldHeight : ℚ
  gridWidth : Nat
  gridHeight : Nat
  grid : List (List Nat)

/-- The `Navigation` constructor with `initializeGrid` (all cells walkable). -/
def Navigation.create (worldWidth worldHeight : ℚ) (tileSize : ℚ := 16) :
    Navigation :=
  let gw := (ratCeil (worldWidth / tileSize)).toNat
  let gh := (ratCeil (worldHeight / tileSize)).toNat
  { tileSize := tileSize, worldWidth := worldWidth, worldHeight := worldHeight,
    gridWidth := gw, gridHeight := gh,
    grid := List.replicate gh (List.replicate gw 0) }

/-- Write `1` into every position of the row satisfying `p` (positions are
counted from `x`). -/
def updRow (p : Int → Bool) : List Nat → Int → List Nat
  | [], _ => []
  | c :: cs, x => (if p x then 1 else c) :: updRow p cs (x + 1)

/-- Write `1` into every cell of the grid satisfying `p` (rows counted
from `y`). -/
def updGrid (p : Int → Int → Bool) : List (List Nat) → Int → List (List Nat)
  | [], _ => []
  | row :: rows, y => updRow (fun x => p x y) row 0 :: updGrid p rows (y + 1)

/-- `Navigation.markBlocked`: block every grid cell overlapping the
world-space rectangle centred at `(worldX, worldY)`.  The source iterates
`y ∈ [startY, endY)`, `x ∈ [startX, endX)` guarded by the grid bounds;
writing through every actual cell with the rectangle test sets exactly the
same cells. -/
def markBlocked (nav : Navigation) (worldX worldY width height : ℚ) :
    Navigation :=
  let startX : Int := ratFloor ((worldX - width / 2) / nav.tileSize)
  let startY : Int := ratFloor ((worldY - height / 2) / nav.tileSize)
  let endX : Int := ratCeil ((worldX + width / 2) / nav.tileSize)
  let endY : Int := ratCeil ((worldY + height / 2) / nav.tileSize)
  let inRect : Int → Int → Bool := fun x y =>
    decide (startX ≤ x) && decide (x < endX) &&
    decide (startY ≤ y) && decide (y < endY)
  { nav with grid := updGrid inRect nav.grid 0 }

/-- Grid lookup, `this.grid[y]?.[x]` (out of range gives `none`). -/
def cellAt (nav : Navigation) (x y : Int) : Option Nat :=
  if 0 ≤ x ∧ 0 ≤ y then (nav.grid[y.toNat]?).bind (fun row => row[x.toNat]?)
  else none

/-- `worldToGrid`. -/
def worldToGrid (nav : Navigation) (wx wy : ℚ) : Int × Int :=
  (ratFloor (wx / nav.tileSize), ratFloor (wy / nav.tileSize))

/-- `gridToWorld` (centre of the tile). -/
def gridToWorld (nav : Navigation) (gx gy : Int) : ℚ × ℚ :=
  (gx * nav.tileSize + nav.tileSize / 2, gy * nav.tileSize + nav.tileSize / 2)

/-- The clamping of `findPath`: `Math.max(0, Math.min(gridWidth - 1, x))`. -/
def clampToGrid (nav : Navigation) (c : Int × Int) : Int × Int :=
  (max 0 (min ((nav.gridWidth : Int) - 1) c.1),
   max 0 (min ((nav.gridHeight : Int) - 1) c.2))

/-- Endpoint conversion of `findPath`: world position to clamped grid cell. -/
def gridEndpoint (nav : Navigation) (wx wy : ℚ) : Int × Int :=
  clampToGrid nav (worldToGrid nav wx wy)

/-- The candidate test of `findNearestWalkable`: in bounds and walkable. -/
def okCell (nav : Navigation) (x y : Int) : Bool :=
  decide (0 ≤ y) && decide (y < (nav.gridHeight : Int)) &&
  decide (0 ≤ x) && decide (x < (nav.gridWidth : Int)) &&
  (cellAt nav x y == some 0)

/-- The integers `-r, ..., r` in ascending order. -/
def rangeInt (r : Nat) : List Int :=
  (List.range (2 * r + 1)).map (fun i : Nat => (i : Int) - r)

/-- The scan order of one radius iteration of `findNearestWalkable`:
`dy` ascending in the outer loop, `dx` ascending in the inner loop, over the
full square of Chebyshev radius `r`; pairs are `(dy, dx)`. -/
def squareCands (r : Nat) : List (Int × Int) :=
  (rangeInt r).flatMap (fun dy => (rangeInt r).map (fun dx => (dy, dx)))

/-- Chebyshev radius of an offset `(dy, dx)`. -/
def chebR (c : Int × Int) : Nat := max c.1.natAbs c.2.natAbs

/-- The radii `1, ..., 10` scanned by `findNearestWalkable`. -/
def radiiList : List Nat := List.range' 1 10

/-- `Navigation.findNearestWalkable`: expanding scan of radii 1..10, within
each radius `dy` ascending then `dx` ascending, returning the first
in-bounds walkable cell, or `none` when the scan is exhausted. -/
def findNearestWalkable (nav : Navigation) (gx gy : Int) : Option (Int × Int) :=
  (radiiList.findSome? (fun r =>
    (squareCands r).find? (fun d => okCell nav (gx + d.2) (gy + d.1)))).map
    (fun d => (gx + d.2, gy + d.1))

/-- Cells at Chebyshev radius exactly `r`, `dy` ascending then `dx`
ascending — one "ring" in the spec's description of the search. -/
def ringCands (r : Nat) : List (Int × Int) :=
  (rangeInt r).flatMap (fun dy =>
    ((rangeInt r).filter (fun dx => chebR (dy, dx) == r)).map (fun dx => (dy, dx)))

/-- The nearest-walkable search as the spec words it: "an expanding ring
search (radius 1..10, first match wins, ties broken by scan order: y
ascending outer, x ascending inner within each ring)".  Stated for
comparison against the source's `findNearestWalkable`. -/
def specNearestWalkable (nav : Navigation) (gx gy : Int) : Option (Int × Int) :=
  (radiiList.findSome? (fun r =>
    (ringCands r).find? (fun d => okCell nav (gx + d.2) (gy + d.1)))).map
    (fun d => (gx + d.2, gy + d.1))

/-- The blocked-endpoint substitution of `findPath` (lines 114-130): replace
a blocked cell by the nearest walkable cell when one is found within the
search radius, otherwise keep the original cell. -/
def substituteEndpoint (nav : Navigation) (c : Int × Int) : Int × Int :=
  if cellAt nav c.1 c.2 = some 1 then
    match findNearestWalkable nav c.1 c.2 with
    | some n => n
    | none => c
  else c

/-- The 8 neighbour offsets `(dy, dx)` of a cell (diagonals included;
corner cutting is enabled in the source, so a diagonal step needs no
walkable orthogonal neighbours). -/
def neighborOffsets : List (Int × Int) :=
  [(-1, -1), (-1, 0), (-1, 1), (0, -1), (0, 1), (1, -1), (1, 0), (1, 1)]

/-- Walkable in-bounds 8-neighbours of a cell `(x, y)`. -/
def neighborsOf (nav : Navigation) (c : Int × Int) : List (Int × Int) :=
  (neighborOffsets.map (fun d => (c.1 + d.2, c.2 + d.1))).filter
    (fun n => okCell nav n.1 n.2)

/-- One saturation step of 8-connected reachability. -/
def expandReach (nav : Navigation) (s : List (Int × Int)) : List (Int × Int) :=
  (s ++ s.flatMap (neighborsOf nav)).dedup

/-- All cells 8-connected to `start` through walkable cells; saturating the
expansion `gridWidth * gridHeight` times reaches the fixpoint, since any
connected cell is connected by a route visiting each cell at most once. -/
def reachableSet (nav : Navigation) (start : Int × Int) : List (Int × Int) :=
  (expandReach nav)^[nav.gridWidth * nav.gridHeight] [start]

/-- Modelled from the spec: easystarjs (an external dependency, not part of
this repository) "computes a path over 8-connected cells (diagonal moves
allowed, corner-cutting allowed) from start to end using a shortest-path
search (e.g., A*) with acceptable-tile set = walkable" — a complete search,
so it reports a path exactly when the endpoints are 8-connected through
walkable cells and `null` otherwise.  `reachableB` decides that
connectivity. -/
def reachableB (nav : Navigation) (s e : Int × Int) : Bool :=
  (reachableSet nav s).contains e

/-- Breadth-first path construction used for the path easystarjs reports in
the connected case (its contents are not the subject of any claim; only
existence/absence of a path is). -/
def bfsPath (nav : Navigation) (target : Int × Int) :
    Nat → List ((Int × Int) × List (Int × Int)) → List (Int × Int) →
    Option (List (Int × Int))
  | 0, _, _ => none
  | _ + 1, [], _ => none
  | fuel + 1, (c, path) :: rest, visited =>
    if c = target then some (path ++ [c])
    else
      let ns := (neighborsOf nav c).filter (fun n => !visited.contains n)
      bfsPath nav target fuel (rest ++ ns.map (fun n => (n, path ++ [c])))
        (visited ++ ns)

/-- Modelled from the spec: `easyStar.findPath` — `some` grid path when the
endpoints are 8-connected through walkable cells, `none` otherwise. -/
def easyStarFindPath (nav : Navigation) (s e : Int × Int) :
    Option (List (Int × Int)) :=
  if reachableB nav s e then
    some ((bfsPath nav e (8 * nav.gridWidth * nav.gridHeight + 1)
      [(s, [])] [s]).getD [e])
  else none

/-- `Navigation.findPath`: convert the endpoints to clamped grid cells,
substitute blocked endpoints, run the search, and either convert the grid
path to tile-centre world coordinates or fall back to the single requested
destination waypoint.  The returned list is the value passed to the
callback. -/
def findPath (nav : Navigation) (startX startY endX endY : ℚ) :
    List (ℚ × ℚ) :=
  let s1 := substituteEndpoint nav (gridEndpoint nav startX startY)
  let e1 := substituteEndpoint nav (gridEndpoint nav endX endY)
  match easyStarFindPath nav s1 e1 with
  | some p =>
    if 0 < p.length then p.map (fun c => gridToWorld nav c.1 c.2)
    else [(endX, endY)]
  | none => [(endX, endY)]

/-! ### Agent model (src/game/Agent.ts)

The sprite fields relevant to the walking state machine.  Velocities and
positions are rationals; the `onArriveCallback` closure body is external to
the agent, so the model keeps its presence as a flag and reports whether
`arriveAtDestination` fired it.  `Phaser.Math.Distance.Between` and the
`cos`/`sin` steering of `followPath` compute with real-valued doubles, so
the waypoint test uses the equivalent squared-distance comparison and the
steering is an oracle parameter; neither is on the arrival branch the
claims are about. -/

inductive AgState where
  | idle
  | walking
  | talking
  | working
  | consulting
deriving DecidableEq

structure AgentM where
  agentState : AgState
  x : ℚ
  y : ℚ
  vx : ℚ
  vy : ℚ
  homeX : ℚ
  homeY : ℚ
  isReturningHome : Bool
  walkTarget : Option (ℚ × ℚ)
  hasArriveCallback : Bool
  currentPath : List (ℚ × ℚ)
  currentPathIndex : Nat
  collisionDisabled : Bool
  indicator : String

/-- `Agent.setAgentState`. -/
def setAgentState (a : AgentM) (s : AgState) : AgentM :=
  let a1 := { a with agentState := s, isReturningHome := false }
  match s with
  | .talking => { a1 with vx := 0, vy := 0, indicator := "💬" }
  | .idle => { a1 with vx := 0, vy := 0, indicator := "" }
  | .working => { a1 with vx := 0, vy := 0, indicator := "💻" }
  | .consulting => { a1 with vx := 0, vy := 0, indicator := "🤔" }
  | .walking => { a1 with indicator := "🚶" }

/-- `Agent.arriveAtDestination`; the returned flag records whether the
registered arrival callback was fired. -/
def arriveAtDestination (a : AgentM) : AgentM × Bool :=
  let a1 := { a with vx := 0, vy := 0, currentPath := [], currentPathIndex := 0,
                     collisionDisabled := false }
  if a1.hasArriveCallback then
    let a2 := { a1 with hasArriveCallback := false, walkTarget := none }
    (setAgentState a2 .idle, true)
  else if a1.isReturningHome then
    let a2 := { a1 with isReturningHome := false, x := a1.homeX, y := a1.homeY }
    (setAgentState a2 .working, false)
  else
    (setAgentState a1 .idle, false)

/-- `Agent.followPath`.  `steer` abstracts the floating-point
`cos`/`sin` velocity computation toward the current waypoint. -/
def followPath (steer : (ℚ × ℚ) → (ℚ × ℚ) → ℚ × ℚ) (a : AgentM) :
    AgentM × Bool :=
  if a.currentPath.length = 0 ∨ a.currentPath.length ≤ a.currentPathIndex then
    arriveAtDestination a
  else
    let target := a.currentPath.getD a.currentPathIndex (0, 0)
    let dx := target.1 - a.x
    let dy := target.2 - a.y
    -- distance < 8, stated on squares (both sides non-negative)
    if dx * dx + dy * dy < 64 then
      let a1 := { a with currentPathIndex := a.currentPathIndex + 1 }
      if a1.currentPath.length ≤ a1.currentPathIndex then
        arriveAtDestination a1
      else (a1, false)
    else
      let v := steer (a.x, a.y) target
      ({ a with vx := v.1, vy := v.2 }, false)

/-- `Agent.update` (label repositioning omitted — purely visual). -/
def agentUpdate (steer : (ℚ × ℚ) → (ℚ × ℚ) → ℚ × ℚ) (a : AgentM) :
    AgentM × Bool :=
  match a.agentState with
  | .talking => ({ a with vx := 0, vy := 0 }, false)
  | .working => ({ a with vx := 0, vy := 0 }, false)
  | .idle => ({ a with vx := 0, vy := 0 }, false)
  | .consulting => ({ a with vx := 0, vy := 0 }, false)
  | .walking => followPath steer a

/-! ### Shared helper lemmas and sample inputs -/

/-- A sample model oracle for witnesses: never consults, answers "ok". -/
def sampleLLM : LLMOracle :=
  { consults := fun _ _ => [], finalText := fun _ _ => "ok" }

/-- An orchestrator with callbacks attached. -/
def exOrchReady : OrchState := run "user" [Op.setCallbacks]

/-- An orchestrator with one in-flight consultation of `tech-lead`. -/
def exOrchOneCall : OrchState :=
  run "user" [Op.setCallbacks, Op.call "f1" "user" "tech-lead" "q" none]

theorem completeToolCall_eq (s : OrchState) (frameId response : String) :
    completeToolCall s frameId response = s := by
  unfold completeToolCall findFrame
  cases s.callbacksSet <;> simp

theorem handleToolCall_cancelled (s : OrchState)
    (newId caller target query : String) (ctx : Option String)
    (h : s.isCancelled = true) :
    handleToolCall s newId caller target query ctx = (s, false) := by
  unfold handleToolCall
  cases hc : s.callbacksSet <;> simp [h, hc]

theorem updateFirstFrame_map_target (frameId : String)
    (g : ToolCallFrame → ToolCallFrame)
    (hg : ∀ f, (g f).targetAgentId = f.targetAgentId) (l : List ToolCallFrame) :
    (updateFirstFrame frameId g l).map (fun f => f.targetAgentId) =
      l.map (fun f => f.targetAgentId) := by
  induction l with
  | nil => rfl
  | cons f fs ih =>
    unfold updateFirstFrame
    by_cases hf : (f.id == frameId) = true
    · simp [hf, hg f]
    · simp only [Bool.not_eq_true] at hf
      simp [hf, ih]

/-- Targets of in-flight frames are pairwise distinct. -/
def targetsDistinct (s : OrchState) : Prop :=
  (s.frames.map (fun f => f.targetAgentId)).Pairwise (· ≠ ·)

theorem handleToolCall_targetsDistinct (s : OrchState)
    (newId caller target query : String) (ctx : Option String)
    (h : targetsDistinct s) :
    targetsDistinct (handleToolCall s newId caller target query ctx).1 := by
  unfold handleToolCall
  cases hc : s.callbacksSet
  · simpa using h
  · simp only [hc, Bool.not_true, Bool.false_eq_true, if_false]
    cases hcan : s.isCancelled
    · simp only [Bool.false_eq_true, if_false]
      cases hb : s.busy target
      · simp only [Bool.false_eq_true, if_false]
        cases hchain : isAgentInChain s.frames target
        · simp only [Bool.false_eq_true, if_false]
          unfold targetsDistinct at h ⊢
          simp only [emitStatus]
          rw [updateFirstFrame_map_target newId
                (fun f => { f with thoughtBubbleId := some ("bubble-" ++ newId) })
                (fun _ => rfl),
              updateFirstFrame_map_target newId
                (fun f => { f with status := FrameStatus.thinking }) (fun _ => rfl),
              updateFirstFrame_map_target newId
                (fun f => { f with status := FrameStatus.walking }) (fun _ => rfl),
              List.map_append, List.pairwise_append]
          refine ⟨h, by simp, ?_⟩
          intro a ha b hb2
          simp only [List.map_cons, List.map_nil, List.mem_singleton] at hb2
          subst hb2
          unfold isAgentInChain at hchain
          rw [List.any_eq_false] at hchain
          simp only [List.mem_map] at ha
          obtain ⟨f, hf, rfl⟩ := ha
          have := hchain f hf
          simp only [Bool.or_eq_true, beq_iff_eq, not_or] at this
          exact this.2
        · simpa using h
      · simpa using h
    · simpa using h

theorem step_targetsDistinct (s : OrchState) (op : Op)
    (h : targetsDistinct s) : targetsDistinct (step s op) := by
  cases op with
  | setCallbacks => simpa [step, targetsDistinct] using h
  | call newId caller target query ctx =>
    exact handleToolCall_targetsDistinct s newId caller target query ctx h
  | complete frameId response =>
    simpa [step, completeToolCall_eq, targetsDistinct] using h
  | cancel => simp [step, cancelOrch, targetsDistinct]
  | reset => simp [step, resetOrch, targetsDistinct]

theorem run_targetsDistinct (root : String) (ops : List Op) :
    targetsDistinct (run root ops) := by
  have main : ∀ (l : List Op) (s : OrchState), targetsDistinct s →
      targetsDistinct (l.foldl step s) := by
    intro l
    induction l with
    | nil => intro s hs; simpa using hs
    | cons op rest ih =>
      intro s hs
      exact ih (step s op) (step_targetsDistinct s op hs)
  exact main ops (initOrch root) (by simp [initOrch, targetsDistinct])

/-! ### Claim theorems: orchestrator and server consultation -/

/-- The six-call sequence that drives the orchestrator stack beyond
`MAX_CALL_DEPTH`: six distinct targets, none busy, none in the chain. -/
def c1ops : List Op :=
  [Op.setCallbacks,
   Op.call "i1" "u" "t1" "q" none, Op.call "i2" "u" "t2" "q" none,
   Op.call "i3" "u" "t3" "q" none, Op.call "i4" "u" "t4" "q" none,
   Op.call "i5" "u" "t5" "q" none, Op.call "i6" "u" "t6" "q" none]

/-- C1 (counterexample): as stated the claim is false for the orchestrator:
`handleToolCall` performs no depth check, so a sequence of six consultations
with distinct targets pushes a frame of depth `5 = MAX_CALL_DEPTH`; the
stack grows to six frames and no canned message exists on that path. -/
theorem c1_depth_counterexample :
    ((run "user" c1ops).frames.any (fun f => decide (MAX_CALL_DEPTH ≤ f.depth)))
      = true ∧ (run "user" c1ops).frames.length = 6 := by
  constructor
  · decide
  · decide

/-- C1 (amended): the depth bound holds for the server-side
`executeConsultation`: an invocation at `depth ≥ MAX_CALL_DEPTH` returns the
canned maximum-depth message as a normal response, performs no nested
consultation and emits no tool event. -/
theorem c1_depth_guard (llm : LLMOracle) (target query : String)
    (ctx : Option String) (chain : List String) (depth : Nat)
    (h : MAX_CALL_DEPTH ≤ depth) :
    executeConsultation llm target query ctx chain depth =
      ({ agentName := target, response := maxDepthMessage }, []) := by
  rw [executeConsultation]
  simp [h]

theorem c1_depth_guard_witness :
    MAX_CALL_DEPTH ≤ 5 ∧
    executeConsultation sampleLLM "tech-lead" "q" none [] 5 =
      ({ agentName := "tech-lead", response := maxDepthMessage }, []) :=
  ⟨by decide, c1_depth_guard sampleLLM "tech-lead" "q" none [] 5 (by decide)⟩

/-- C2 (code bug): `completeToolCall` never clears the busy flag, never pops
the frame and never touches the thought bubble, because `findFrame` returns
`undefined` unconditionally: the whole call is a no-op, and after a pushed
consultation the frame and the busy flag survive completion. -/
theorem c2_completeToolCall_noop :
    (∀ (s : OrchState) (frameId response : String),
      completeToolCall s frameId response = s) ∧
    (run "user" [Op.setCallbacks, Op.call "f1" "user" "tech-lead" "q" none,
        Op.complete "f1" "resp"]).frames.length = 1 ∧
    (run "user" [Op.setCallbacks, Op.call "f1" "user" "tech-lead" "q" none,
        Op.complete "f1" "resp"]).busy "tech-lead" = true ∧
    (run "user" [Op.setCallbacks, Op.call "f1" "user" "tech-lead" "q" none,
        Op.complete "f1" "resp"]).bubbles = [("bubble-f1", "")] :=
  ⟨completeToolCall_eq, by decide, by decide, by decide⟩

/-- C4: a consultation targeting an agent already in the chain (as caller or
target) is rejected without a push: the orchestrator leaves its frames
unchanged and reports no visuals, and the server route answers one of its
canned refusals (the circular message, or the maximum-depth message when the
depth guard fires first) without emitting any nested tool event. -/
theorem c4_cycle_reject :
    (∀ (s : OrchState) (newId caller target query : String) (ctx : Option String),
      isAgentInChain s.frames target = true →
      (handleToolCall s newId caller target query ctx).1.frames = s.frames ∧
      (handleToolCall s newId caller target query ctx).2 = false) ∧
    (∀ (llm : LLMOracle) (target query : String) (ctx : Option String)
      (chain : List String) (depth : Nat), target ∈ chain →
      (executeConsultation llm target query ctx chain depth).2 = [] ∧
      ((executeConsultation llm target query ctx chain depth).1.response =
          maxDepthMessage ∨
       (executeConsultation llm target query ctx chain depth).1.response =
          circularMessage)) := by
  constructor
  · intro s newId caller target query ctx h
    unfold handleToolCall
    cases hc : s.callbacksSet
    · simp
    · cases hcan : s.isCancelled
      · cases hb : s.busy target
        · simp [hc, hcan, hb, h, emitStatus]
        · simp [hc, hcan, hb, emitStatus]
      · simp [hc, hcan]
  · intro llm target query ctx chain depth h
    rw [executeConsultation]
    by_cases hd : MAX_CALL_DEPTH ≤ depth
    · simp [hd]
    · simp [hd, h]

theorem c4_cycle_reject_witness :
    (isAgentInChain exOrchOneCall.frames "user" = true ∧
     (handleToolCall exOrchOneCall "f2" "tech-lead" "user" "q2" none).1.frames =
        exOrchOneCall.frames ∧
     (handleToolCall exOrchOneCall "f2" "tech-lead" "user" "q2" none).2 = false) ∧
    ("tech-lead" ∈ ["qa-engineer", "tech-lead"] ∧
     (executeConsultation sampleLLM "tech-lead" "q" none
        ["qa-engineer", "tech-lead"] 2).2 = [] ∧
     ((executeConsultation sampleLLM "tech-lead" "q" none
        ["qa-engineer", "tech-lead"] 2).1.response = maxDepthMessage ∨
      (executeConsultation sampleLLM "tech-lead" "q" none
        ["qa-engineer", "tech-lead"] 2).1.response = circularMessage)) :=
  ⟨⟨by decide,
    (c4_cycle_reject.1 exOrchOneCall "f2" "tech-lead" "user" "q2" none (by decide)).1,
    (c4_cycle_reject.1 exOrchOneCall "f2" "tech-lead" "user" "q2" none (by decide)).2⟩,
   ⟨by decide,
    (c4_cycle_reject.2 sampleLLM "tech-lead" "q" none
      ["qa-engineer", "tech-lead"] 2 (by decide)).1,
    (c4_cycle_reject.2 sampleLLM "tech-lead" "q" none
      ["qa-engineer", "tech-lead"] 2 (by decide)).2⟩⟩

/-- C5: in every reachable orchestrator state the in-flight frames carry
pairwise distinct target agents; a push marks its target busy (a call that
completes its visuals has set the target's busy flag), and a call naming a
busy target is rejected with frames and busy flags untouched. -/
theorem c5_busy_exclusion :
    (∀ (root : String) (ops : List Op),
      ((run root ops).frames.map (fun f => f.targetAgentId)).Pairwise (· ≠ ·)) ∧
    (∀ (s : OrchState) (newId caller target query : String) (ctx : Option String),
      (handleToolCall s newId caller target query ctx).2 = true →
      (handleToolCall s newId caller target query ctx).1.busy target = true) ∧
    (∀ (s : OrchState) (newId caller target query : String) (ctx : Option String),
      s.busy target = true →
      (handleToolCall s newId caller target query ctx).1.frames = s.frames ∧
      (handleToolCall s newId caller target query ctx).1.busy = s.busy ∧
      (handleToolCall s newId caller target query ctx).2 = false) := by
  refine ⟨run_targetsDistinct, ?_, ?_⟩
  · intro s newId caller target query ctx h
    unfold handleToolCall at h ⊢
    cases hc : s.callbacksSet
    · simp [hc] at h
    · cases hcan : s.isCancelled
      · cases hb : s.busy target
        · cases hchain : isAgentInChain s.frames target
          · simp [hc, hcan, hb, hchain, emitStatus]
          · simp [hc, hcan, hb, hchain] at h
        · simp [hc, hcan, hb] at h
      · simp [hc, hcan] at h
  · intro s newId caller target query ctx h
    unfold handleToolCall
    cases hc : s.callbacksSet
    · simp
    · cases hcan : s.isCancelled
      · simp [hc, hcan, h, emitStatus]
      · simp [hc, hcan]

theorem c5_busy_exclusion_witness :
    ((handleToolCall exOrchReady "f1" "user" "tech-lead" "q" none).2 = true ∧
     (handleToolCall exOrchReady "f1" "user" "tech-lead" "q" none).1.busy
        "tech-lead" = true) ∧
    (exOrchOneCall.busy "tech-lead" = true ∧
     (handleToolCall exOrchOneCall "f2" "user" "tech-lead" "q2" none).1.frames =
        exOrchOneCall.frames ∧
     (handleToolCall exOrchOneCall "f2" "user" "tech-lead" "q2" none).1.busy =
        exOrchOneCall.busy ∧
     (handleToolCall exOrchOneCall "f2" "user" "tech-lead" "q2" none).2 = false) :=
  ⟨⟨by decide,
    c5_busy_exclusion.2.1 exOrchReady "f1" "user" "tech-lead" "q" none (by decide)⟩,
   ⟨by decide,
    c5_busy_exclusion.2.2 exOrchOneCall "f2" "user" "tech-lead" "q2" none (by decide)⟩⟩

/-- C10: `cancel` latches: after it, `isCancelled` survives every operation
except `reset`, and every `handleToolCall` returns `visualsComplete = false`
with the state unchanged — no frame, no status message, no busy flag. -/
theorem c10_cancel_latch :
    (∀ (s : OrchState) (op : Op), op ≠ Op.reset → s.isCancelled = true →
      (step s op).isCancelled = true) ∧
    (∀ (s : OrchState) (newId caller target query : String) (ctx : Option String),
      s.isCancelled = true →
      handleToolCall s newId caller target query ctx = (s, false)) := by
  constructor
  · intro s op hop h
    cases op with
    | setCallbacks => simpa [step] using h
    | call newId caller target query ctx =>
      simp [step, handleToolCall_cancelled s newId caller target query ctx h, h]
    | complete frameId response => simpa [step, completeToolCall_eq] using h
    | cancel => simp [step, cancelOrch]
    | reset => exact absurd rfl hop
  · exact handleToolCall_cancelled

theorem c10_cancel_latch_witness :
    (Op.call "f9" "user" "tech-lead" "q" none ≠ Op.reset ∧
     (run "user" [Op.setCallbacks, Op.cancel]).isCancelled = true ∧
     (step (run "user" [Op.setCallbacks, Op.cancel])
        (Op.call "f9" "user" "tech-lead" "q" none)).isCancelled = true) ∧
    handleToolCall (run "user" [Op.setCallbacks, Op.cancel])
        "f9" "user" "tech-lead" "q" none =
      (run "user" [Op.setCallbacks, Op.cancel], false) :=
  ⟨⟨by decide, by decide,
    c10_cancel_latch.1 (run "user" [Op.setCallbacks, Op.cancel])
      (Op.call "f9" "user" "tech-lead" "q" none) (by decide) (by decide)⟩,
   c10_cancel_latch.2 (run "user" [Op.setCallbacks, Op.cancel])
     "f9" "user" "tech-lead" "q" none (by decide)⟩

/-! ### Claim theorems: navigation grid -/

theorem updRow_idem (p : Int → Bool) :
    ∀ (r : List Nat) (x0 : Int), updRow p (updRow p r x0) x0 = updRow p r x0 := by
  intro r
  induction r with
  | nil => intro x0; rfl
  | cons c cs ih =>
    intro x0
    by_cases hp : p x0 = true
    · simp [updRow, hp, ih]
    · simp only [Bool.not_eq_true] at hp
      simp [updRow, hp, ih]

theorem updGrid_idem (p : Int → Int → Bool) :
    ∀ (g : List (List Nat)) (y0 : Int),
      updGrid p (updGrid p g y0) y0 = updGrid p g y0 := by
  intro g
  induction g with
  | nil => intro y0; rfl
  | cons row rows ih =>
    intro y0
    simp [updGrid, updRow_idem, ih]

theorem updRow_getElem (p : Int → Bool) :
    ∀ (r : List Nat) (x0 : Int) (i : Nat),
      (updRow p r x0)[i]? = (r[i]?).map (fun c => if p (x0 + i) then 1 else c) := by
  intro r
  induction r with
  | nil => intro x0 i; simp [updRow]
  | cons c cs ih =>
    intro x0 i
    cases i with
    | zero => simp [updRow]
    | succ j =>
      simp only [updRow, List.getElem?_cons_succ]
      rw [ih (x0 + 1) j]
      have harith : x0 + 1 + (j : Int) = x0 + ((j + 1 : Nat) : Int) := by
        push_cast
        ring
      rw [harith]

theorem updGrid_getElem (p : Int → Int → Bool) :
    ∀ (g : List (List Nat)) (y0 : Int) (j : Nat),
      (updGrid p g y0)[j]? =
        (g[j]?).map (fun row => updRow (fun x => p x (y0 + j)) row 0) := by
  intro g
  induction g with
  | nil => intro y0 j; simp [updGrid]
  | cons row rows ih =>
    intro y0 j
    cases j with
    | zero => simp [updGrid]
    | succ k =>
      simp only [updGrid, List.getElem?_cons_succ]
      rw [ih (y0 + 1) k]
      have harith : y0 + 1 + (k : Int) = y0 + ((k + 1 : Nat) : Int) := by
        push_cast
        ring
      rw [harith]

/-- C8: `markBlocked` is idempotent and monotone: repeating a call with the
same arguments changes nothing further, and a cell already blocked stays
blocked after any `markBlocked` call (cells only ever go walkable to
blocked). -/
theorem c8_markBlocked_idem_monotone :
    (∀ (nav : Navigation) (wx wy w h : ℚ),
      markBlocked (markBlocked nav wx wy w h) wx wy w h =
        markBlocked nav wx wy w h) ∧
    (∀ (nav : Navigation) (wx wy w h : ℚ) (x y : Int),
      cellAt nav x y = some 1 →
      cellAt (markBlocked nav wx wy w h) x y = some 1) := by
  constructor
  · intro nav wx wy w h
    simp only [markBlocked]
    rw [updGrid_idem]
  · intro nav wx wy w h x y hcell
    unfold cellAt at hcell ⊢
    by_cases hxy : 0 ≤ x ∧ 0 ≤ y
    · simp only [hxy, and_self, if_true] at hcell ⊢
      simp only [markBlocked]
      rw [updGrid_getElem]
      obtain ⟨row, hrow, hval⟩ :
          ∃ row, nav.grid[y.toNat]? = some row ∧ row[x.toNat]? = some 1 := by
        cases hr : nav.grid[y.toNat]? with
        | none => rw [hr] at hcell; simp at hcell
        | some r =>
          rw [hr] at hcell
          exact ⟨r, rfl, by simpa using hcell⟩
      rw [hrow, Option.map_some', Option.some_bind, updRow_getElem, hval]
      simp
    · simp [hxy] at hcell

theorem c8_markBlocked_witness :
    cellAt (markBlocked (Navigation.create 64 64 16) 8 8 16 16) 0 0 = some 1 ∧
    cellAt (markBlocked (markBlocked (Navigation.create 64 64 16) 8 8 16 16)
        40 40 16 16) 0 0 = some 1 :=
  ⟨by with_unfolding_all decide,
   c8_markBlocked_idem_monotone.2 (markBlocked (Navigation.create 64 64 16) 8 8 16 16)
     40 40 16 16 0 0 (by with_unfolding_all decide)⟩

/-- C6: when no 8-connected walkable route joins the (possibly substituted)
start and end cells, `findPath` hands the callback exactly one waypoint, the
requested destination world coordinate; the fallback raises no error. -/
theorem c6_findPath_fallback (nav : Navigation) (sx sy ex ey : ℚ)
    (h : reachableB nav (substituteEndpoint nav (gridEndpoint nav sx sy))
      (substituteEndpoint nav (gridEndpoint nav ex ey)) = false) :
    findPath nav sx sy ex ey = [(ex, ey)] := by
  simp [findPath, easyStarFindPath, h]

/-- A 3-by-3 office whose middle column is fully blocked: the left and right
regions are disconnected. -/
def exSplitNav : Navigation := markBlocked (Navigation.create 48 48 16) 24 24 16 48

theorem c6_findPath_fallback_witness :
    reachableB exSplitNav (substituteEndpoint exSplitNav (gridEndpoint exSplitNav 8 8))
      (substituteEndpoint exSplitNav (gridEndpoint exSplitNav 40 8)) = false ∧
    findPath exSplitNav 8 8 40 8 = [(40, 8)] :=
  ⟨by with_unfolding_all decide,
   c6_findPath_fallback exSplitNav 8 8 40 8 (by with_unfolding_all decide)⟩

/-! ### Claim theorems: agent arrival -/

/-- C9: a walking agent whose path index has exhausted its path transitions
per the arrival rules: with a registered arrival callback it goes idle and
the callback fires; otherwise with the returning-home flag set it snaps to
its home position and goes to working; otherwise it goes idle — and in all
three cases the velocity is zeroed and collision with static obstacles is
restored. -/
theorem c9_arrival (steer : (ℚ × ℚ) → (ℚ × ℚ) → ℚ × ℚ) (a : AgentM)
    (hwalk : a.agentState = .walking)
    (hdone : a.currentPath.length ≤ a.currentPathIndex) :
    (agentUpdate steer a).1.vx = 0 ∧ (agentUpdate steer a).1.vy = 0 ∧
    (agentUpdate steer a).1.collisionDisabled = false ∧
    (a.hasArriveCallback = true →
      (agentUpdate steer a).1.agentState = .idle ∧ (agentUpdate steer a).2 = true) ∧
    (a.hasArriveCallback = false → a.isReturningHome = true →
      (agentUpdate steer a).1.agentState = .working ∧
      (agentUpdate steer a).1.x = a.homeX ∧ (agentUpdate steer a).1.y = a.homeY ∧
      (agentUpdate steer a).2 = false) ∧
    (a.hasArriveCallback = false → a.isReturningHome = false →
      (agentUpdate steer a).1.agentState = .idle ∧
      (agentUpdate steer a).2 = false) := by
  have hupd : agentUpdate steer a = arriveAtDestination a := by
    unfold agentUpdate
    rw [hwalk]
    unfold followPath
    rw [if_pos (Or.inr hdone)]
  rw [hupd]
  unfold arriveAtDestination setAgentState
  cases hcb : a.hasArriveCallback
  · cases hret : a.isReturningHome
    · simp
    · simp
  · simp

/-- A sample walking agent with an exhausted path and a pending callback. -/
def exAgent : AgentM :=
  { agentState := .walking, x := 100, y := 100, vx := 3, vy := 4,
    homeX := 120, homeY := 190, isReturningHome := false, walkTarget := some (100, 100),
    hasArriveCallback := true, currentPath := [(100, 100)], currentPathIndex := 1,
    collisionDisabled := true, indicator := "🚶" }

theorem c9_arrival_witness :
    exAgent.agentState = .walking ∧
    exAgent.currentPath.length ≤ exAgent.currentPathIndex ∧
    ((agentUpdate (fun _ _ => (0, 0)) exAgent).1.vx = 0 ∧
     (agentUpdate (fun _ _ => (0, 0)) exAgent).1.agentState = .idle ∧
     (agentUpdate (fun _ _ => (0, 0)) exAgent).2 = true) :=
  ⟨rfl, by decide,
   (c9_arrival (fun _ _ => (0, 0)) exAgent rfl (by decide)).1,
   ((c9_arrival (fun _ _ => (0, 0)) exAgent rfl (by decide)).2.2.2.1 rfl).1,
   ((c9_arrival (fun _ _ => (0, 0)) exAgent rfl (by decide)).2.2.2.1 rfl).2⟩

/-! ### Claim theorems: stream round-trip -/

theorem prefix_append_of_le (a x y : List Char) (h : a.length ≤ x.length) :
    a <+: x ++ y ↔ a <+: x := by
  constructor
  · intro hp
    rw [List.prefix_iff_eq_take] at hp ⊢
    rwa [List.take_append_of_le_length h] at hp
  · intro hp
    exact hp.trans (List.prefix_append x y)

theorem isPrefixOf_append_of_le (a x y : List Char) (h : a.length ≤ x.length) :
    a.isPrefixOf (x ++ y) = a.isPrefixOf x :=
  Bool.coe_iff_coe.mp
    (by simp only [List.isPrefixOf_iff_prefix]; exact prefix_append_of_le a x y h)

theorem scanChunk_nil : scanChunk [] = ([], []) := rfl

theorem scanChunk_notOpen (c : Char) (cs : List Char)
    (h : openMark.isPrefixOf (c :: cs) = false) :
    scanChunk (c :: cs) = (c :: (scanChunk cs).1, (scanChunk cs).2) := by
  unfold scanChunk
  rw [List.length_cons, scanChunkF_cons]
  simp [h]

theorem scanChunk_open (l p rest : List Char) (hne : l ≠ [])
    (h : openMark.isPrefixOf l = true)
    (hg : grabPayload (l.drop openMark.length) = some (p, rest)) :
    scanChunk l = ((scanChunk rest).1, p :: (scanChunk rest).2) := by
  cases l with
  | nil => exact absurd rfl hne
  | cons c cs =>
    unfold scanChunk
    rw [List.length_cons, scanChunkF_cons]
    simp only [h, if_true]
    rw [hg]
    show ((scanChunkF cs.length rest).1, p :: (scanChunkF cs.length rest).2) =
      ((scanChunkF rest.length rest).1, p :: (scanChunkF rest.length rest).2)
    rw [scanChunkF_fuel cs.length rest (grabPayload_rest_le c cs p rest hg)]

theorem scanChunk_append_text (t : List Char) :
    ∀ z : List Char,
    (∀ i < t.length, ¬ openMark.isPrefixOf ((t ++ z).drop i) = true) →
    scanChunk (t ++ z) = (t ++ (scanChunk z).1, (scanChunk z).2) := by
  induction t with
  | nil => intro z _; simp
  | cons c t2 ih =>
    intro z h
    have h0 : openMark.isPrefixOf (c :: (t2 ++ z)) = false := by
      have h00 := h 0 (by simp)
      rw [List.drop_zero, List.cons_append] at h00
      rwa [Bool.not_eq_true] at h00
    rw [List.cons_append, scanChunk_notOpen c (t2 ++ z) h0]
    have hrest : ∀ i < t2.length,
        ¬ openMark.isPrefixOf ((t2 ++ z).drop i) = true := by
      intro i hi
      have h1 := h (i + 1) (by simpa using Nat.succ_lt_succ hi)
      rwa [List.cons_append, List.drop_succ_cons] at h1
    rw [ih z hrest]
    simp

theorem scanChunk_noOpen (t : List Char) (h : noOpenMark t) :
    scanChunk t = (t, []) := by
  have := scanChunk_append_text t []
    (by intro i hi; rw [List.append_nil]; exact h i hi)
  simpa [scanChunk_nil] using this

theorem goodPayload_tail (c : Char) (p : List Char)
    (hne : p ≠ []) (h : goodPayload (c :: p)) : goodPayload p := by
  obtain ⟨_, hterm, hidx⟩ := h
  refine ⟨hne, fun d hd => hterm d (List.mem_cons_of_mem c hd), ?_⟩
  intro k hk1 hk2
  have := hidx (k + 1) (by omega) (by simpa using Nat.succ_lt_succ hk2)
  simpa using this

theorem grabPayload_renders (p : List Char) :
    ∀ z : List Char, goodPayload p →
    grabPayload (p ++ endMark ++ z) = some (p, z) := by
  induction p with
  | nil => intro z hp; exact absurd rfl hp.1
  | cons c p2 ih =>
    intro z hp
    have hterm : isLineTerm c = false := by
      have := hp.2.1 c (by simp)
      simpa using this
    rw [List.cons_append, List.cons_append, grabPayload]
    simp only [hterm, Bool.false_eq_true, if_false]
    cases p2 with
    | nil =>
      have hpre : endMark.isPrefixOf (([] : List Char) ++ endMark ++ z) = true := by
        rw [List.nil_append, isPrefixOf_append_of_le _ _ _ (le_refl _)]
        exact List.isPrefixOf_iff_prefix.mpr List.prefix_rfl
      rw [List.nil_append] at hpre
      simp only [List.nil_append]
      simp [hpre, List.drop_left]
    | cons d p3 =>
      have hnopre : endMark.isPrefixOf ((d :: p3) ++ endMark ++ z) = false := by
        have hidx := hp.2.2 1 (le_refl 1) (by simp)
        have heq : ((c :: (d :: p3)) ++ endMark).drop 1 = (d :: p3) ++ endMark := rfl
        rw [heq] at hidx
        rw [isPrefixOf_append_of_le endMark ((d :: p3) ++ endMark) z
          (by simp; omega)]
        rwa [Bool.not_eq_true] at hidx
      simp only [hnopre, Bool.false_eq_true, if_false]
      rw [ih z (goodPayload_tail c (d :: p3) (by simp) hp)]

theorem goodText_extends (t w : List Char) (h : goodText t) :
    ∀ i < t.length,
      ¬ openMark.isPrefixOf ((t ++ (openMark ++ w)).drop i) = true := by
  intro i hi
  have heq : (t ++ (openMark ++ w)).drop i = ((t ++ openMark).drop i) ++ w := by
    rw [← List.append_assoc, List.drop_append_of_le_length]
    simp [List.length_append]
    omega
  rw [heq, isPrefixOf_append_of_le]
  · exact h i hi
  · simp [List.length_drop, List.length_append]
    omega

theorem scanChunk_render (segs : List (String × String)) :
    ∀ tail : String,
    (∀ tp ∈ segs, goodText tp.1.data ∧ goodPayload tp.2.data) →
    noOpenMark tail.data →
    scanChunk ((segs.map renderSeg).flatten ++ tail.data) =
      ((segs.map (fun tp => tp.1.data)).flatten ++ tail.data,
       segs.map (fun tp => tp.2.data)) := by
  induction segs with
  | nil =>
    intro tail _ htail
    simpa using scanChunk_noOpen tail.data htail
  | cons tp rest ih =>
    intro tail hsegs htail
    obtain ⟨ht, hp⟩ := hsegs tp (by simp)
    have hZ := ih tail (fun q hq => hsegs q (List.mem_cons_of_mem tp hq)) htail
    have hshape : (((tp :: rest).map renderSeg).flatten ++ tail.data) =
        tp.1.data ++ (openMark ++ (tp.2.data ++ endMark ++
          ((rest.map renderSeg).flatten ++ tail.data))) := by
      simp [renderSeg, List.flatten_cons, List.append_assoc]
    rw [hshape]
    rw [scanChunk_append_text _ _
      (goodText_extends tp.1.data _ ht)]
    rw [scanChunk_open (openMark ++ (tp.2.data ++ endMark ++
        ((rest.map renderSeg).flatten ++ tail.data)))
      tp.2.data ((rest.map renderSeg).flatten ++ tail.data)
      (by simp [openMark])
      (by rw [isPrefixOf_append_of_le _ _ _ (le_refl _)]
          exact List.isPrefixOf_iff_prefix.mpr List.prefix_rfl)
      (by rw [List.drop_left]
          exact grabPayload_renders tp.2.data _ hp)]
    rw [hZ]
    simp [List.flatten_cons, List.append_assoc]

/-- C3 (amended): the stream round-trip holds for every chunking that does
not cut a marker pair: if every chunk is itself a well-formed interleaved
stream (each `__TOOL_EVENT__ ... __END_TOOL_EVENT__` pair lies entirely
within one chunk), then concatenating the per-chunk parser text outputs
reconstructs the original narrative text with the markers removed, and the
concatenated extracted payload lists equal the original ordered list of
embedded payloads. -/
theorem c3_stream_roundtrip (chunks : List InterleavedStream)
    (h : ∀ st ∈ chunks, wellFormedStream st) :
    ((chunks.map (fun st => (scanChunk (renderStream st)).1)).flatten =
      (chunks.map narrativeOf).flatten) ∧
    ((chunks.map (fun st => (scanChunk (renderStream st)).2)).flatten =
      (chunks.map eventsOf).flatten) := by
  have key : ∀ st ∈ chunks,
      scanChunk (renderStream st) = (narrativeOf st, eventsOf st) := by
    intro st hst
    obtain ⟨hsegs, htail⟩ := h st hst
    exact scanChunk_render st.segs st.tail hsegs htail
  constructor
  · apply congrArg List.flatten
    exact List.map_congr_left (fun st hst => by rw [key st hst])
  · apply congrArg List.flatten
    exact List.map_congr_left (fun st hst => by rw [key st hst])

/-- The interleaved input of the C3 counterexample: narrative "A", one
embedded event with payload "E1", narrative "B". -/
def exStream : InterleavedStream := { segs := [("A", "E1")], tail := "B" }

/-- C3 (counterexample): splitting the wire stream of `exStream` in the
middle of the opening marker — chunks "A__TOOL_" and
"EVENT__E1__END_TOOL_EVENT__B" — makes the concatenated parser outputs keep
the marker text verbatim and lose the event, so the round-trip fails for
this way of splitting the input into chunks. -/
theorem c3_split_counterexample :
    ("A__TOOL_".data ++ "EVENT__E1__END_TOOL_EVENT__B".data =
      renderStream exStream) ∧
    ¬ ((scanChunk "A__TOOL_".data).1 ++
        (scanChunk "EVENT__E1__END_TOOL_EVENT__B".data).1 =
        narrativeOf exStream) ∧
    ¬ ((scanChunk "A__TOOL_".data).2 ++
        (scanChunk "EVENT__E1__END_TOOL_EVENT__B".data).2 =
        eventsOf exStream) :=
  ⟨by decide, by decide, by decide⟩

/-- A marker-respecting chunking of the same input. -/
def exChunks : List InterleavedStream :=
  [{ segs := [("A", "E1")], tail := "" }, { segs := [], tail := "B" }]

theorem c3_stream_roundtrip_witness :
    (∀ st ∈ exChunks, wellFormedStream st) ∧
    ((exChunks.map (fun st => (scanChunk (renderStream st)).1)).flatten =
      (exChunks.map narrativeOf).flatten) ∧
    ((exChunks.map (fun st => (scanChunk (renderStream st)).2)).flatten =
      (exChunks.map eventsOf).flatten) :=
  ⟨by decide,
   (c3_stream_roundtrip exChunks (by decide)).1,
   (c3_stream_roundtrip exChunks (by decide)).2⟩

/-! ### Claim theorems: nearest-walkable substitution -/

theorem mem_rangeInt (r : Nat) (a : Int) :
    a ∈ rangeInt r ↔ -(r : Int) ≤ a ∧ a ≤ r := by
  unfold rangeInt
  rw [List.mem_map]
  constructor
  · rintro ⟨i, hi, hEq⟩
    rw [List.mem_range] at hi
    have hEq2 : (i : Int) - r = a := hEq
    omega
  · rintro ⟨h1, h2⟩
    refine ⟨(a + r).toNat, ?_, ?_⟩
    · rw [List.mem_range]
      omega
    · show ((a + (r : Int)).toNat : Int) - r = a
      omega

theorem mem_squareCands (r : Nat) (d : Int × Int) :
    d ∈ squareCands r ↔ chebR d ≤ r := by
  unfold squareCands chebR
  simp only [List.mem_flatMap, List.mem_map, mem_rangeInt]
  constructor
  · rintro ⟨dy, hdy, dx, hdx, rfl⟩
    simp only []
    omega
  · intro h
    exact ⟨d.1, by omega, d.2, by omega, rfl⟩

theorem mem_ringCands (r : Nat) (d : Int × Int) :
    d ∈ ringCands r ↔ chebR d = r := by
  unfold ringCands
  simp only [List.mem_flatMap, List.mem_map, List.mem_filter, mem_rangeInt,
    beq_iff_eq]
  constructor
  · rintro ⟨dy, hdy, dx, ⟨hdx, hcheb⟩, rfl⟩
    exact hcheb
  · intro h
    refine ⟨d.1, ?_, d.2, ⟨?_, ?_⟩, rfl⟩
    · unfold chebR at h; omega
    · unfold chebR at h; omega
    · rw [← h]

theorem filter_flatMap {α β : Type} (l : List α) (f : α → List β) (p : β → Bool) :
    (l.flatMap f).filter p = l.flatMap (fun a => (f a).filter p) := by
  induction l with
  | nil => rfl
  | cons a as ih => simp [List.flatMap_cons, List.filter_append, ih]

theorem ringCands_eq_filter (r : Nat) :
    ringCands r = (squareCands r).filter (fun d => chebR d == r) := by
  unfold ringCands squareCands
  rw [filter_flatMap]
  apply congrArg
  funext dy
  rw [List.filter_map]
  rfl

theorem find?_filter_eq {α : Type} (p q : α → Bool) :
    ∀ l : List α, (∀ x ∈ l, q x = false → p x = false) →
    l.find? p = (l.filter q).find? p := by
  intro l
  induction l with
  | nil => intro _; rfl
  | cons a as ih =>
    intro h
    have hrest := ih (fun x hx => h x (List.mem_cons_of_mem a hx))
    by_cases hq : q a = true
    · rw [List.filter_cons_of_pos hq, List.find?_cons, List.find?_cons]
      cases hp : p a
      · exact hrest
      · rfl
    · rw [Bool.not_eq_true] at hq
      have hp := h a (by simp) hq
      rw [List.filter_cons_of_neg (by simp [hq]), List.find?_cons, hp]
      exact hrest

theorem square_find_eq_ring_find (pred : Int × Int → Bool) (r : Nat)
    (hlow : ∀ d, chebR d < r → pred d = false) :
    (squareCands r).find? pred = (ringCands r).find? pred := by
  rw [ringCands_eq_filter]
  apply find?_filter_eq
  intro d hd hne
  apply hlow
  have h1 := (mem_squareCands r d).mp hd
  have h2 : ¬ chebR d = r := by simpa using hne
  omega

theorem square_find_none (pred : Int × Int → Bool) (r : Nat)
    (h : (squareCands r).find? pred = none) :
    ∀ d, chebR d ≤ r → pred d = false := by
  intro d hd
  have := List.find?_eq_none.mp h d ((mem_squareCands r d).mpr hd)
  rwa [Bool.not_eq_true] at this

theorem searchEq (pred : Int × Int → Bool) :
    ∀ (n a : Nat), (∀ d, chebR d ≤ a → pred d = false) →
    (List.range' (a + 1) n).findSome? (fun r => (squareCands r).find? pred) =
      (List.range' (a + 1) n).findSome? (fun r => (ringCands r).find? pred) := by
  intro n
  induction n with
  | zero => intro a _; rfl
  | succ m ih =>
    intro a hlow
    rw [List.range'_succ, List.findSome?_cons, List.findSome?_cons]
    have hstep : (squareCands (a + 1)).find? pred = (ringCands (a + 1)).find? pred :=
      square_find_eq_ring_find pred (a + 1) (fun d hd => hlow d (by omega))
    rw [hstep]
    cases hres : (ringCands (a + 1)).find? pred with
    | some d => rfl
    | none =>
      have hnone_sq : (squareCands (a + 1)).find? pred = none := by
        rw [hstep, hres]
      exact ih (a + 1) (square_find_none pred (a + 1) hnone_sq)

theorem okCell_center_false (nav : Navigation) (gx gy : Int)
    (h : cellAt nav gx gy = some 1) : okCell nav gx gy = false := by
  unfold okCell
  rw [h]
  simp

/-- C7: for a blocked (clamped) endpoint cell, `findPath`'s substitution is
exactly the spec's expanding ring search: the source's square scan agrees
with the ring-by-ring search (radius 1..10, `y` ascending outer, `x`
ascending inner, first in-bounds walkable cell wins), the endpoint is
replaced by its result when one exists and kept otherwise, and an empty
result means no walkable cell exists within Chebyshev radius 10. -/
theorem c7_nearest_walkable (nav : Navigation) (gx gy : Int)
    (hblocked : cellAt nav gx gy = some 1) :
    findNearestWalkable nav gx gy = specNearestWalkable nav gx gy ∧
    substituteEndpoint nav (gx, gy) =
      (specNearestWalkable nav gx gy).getD (gx, gy) ∧
    (specNearestWalkable nav gx gy = none →
      ∀ dy dx : Int, max dy.natAbs dx.natAbs ≤ 10 →
        okCell nav (gx + dx) (gy + dy) = false) := by
  have hcenter : okCell nav gx gy = false := okCell_center_false nav gx gy hblocked
  have hlow0 : ∀ d : Int × Int, chebR d ≤ 0 →
      okCell nav (gx + d.2) (gy + d.1) = false := by
    intro d hd
    have h1 : d.1 = 0 ∧ d.2 = 0 := by unfold chebR at hd; omega
    rw [h1.1, h1.2, add_zero, add_zero]
    exact hcenter
  have hmain : findNearestWalkable nav gx gy = specNearestWalkable nav gx gy := by
    unfold findNearestWalkable specNearestWalkable radiiList
    rw [show (1 : Nat) = 0 + 1 from rfl, searchEq _ 10 0 hlow0]
  refine ⟨hmain, ?_, ?_⟩
  · unfold substituteEndpoint
    rw [if_pos hblocked, hmain]
    cases specNearestWalkable nav gx gy <;> rfl
  · intro hnone dy dx hd
    unfold specNearestWalkable at hnone
    rw [Option.map_eq_none'] at hnone
    have hall := List.findSome?_eq_none_iff.mp hnone
    by_cases h0 : max dy.natAbs dx.natAbs = 0
    · have hz : dy = 0 ∧ dx = 0 := by omega
      rw [hz.1, hz.2, add_zero, add_zero]
      exact hcenter
    · have hmem : (max dy.natAbs dx.natAbs) ∈ List.range' 1 10 := by
        rw [List.mem_range'_1]
        omega
      have hfind := hall _ hmem
      have hdmem : (dy, dx) ∈ ringCands (max dy.natAbs dx.natAbs) :=
        (mem_ringCands _ _).mpr rfl
      have hcell := List.find?_eq_none.mp hfind (dy, dx) hdmem
      rwa [Bool.not_eq_true] at hcell

theorem c7_nearest_walkable_witness :
    cellAt exSplitNav 1 1 = some 1 ∧
    (findNearestWalkable exSplitNav 1 1 = specNearestWalkable exSplitNav 1 1 ∧
     substituteEndpoint exSplitNav (1, 1) =
       (specNearestWalkable exSplitNav 1 1).getD (1, 1)) :=
  ⟨by with_unfolding_all decide,
   (c7_nearest_walkable exSplitNav 1 1 (by with_unfolding_all decide)).1,
   (c7_nearest_walkable exSplitNav 1 1 (by with_unfolding_all decide)).2.1⟩

end ThreeDAgents
